import Mathlib

/-!
# Verification of the museum streaming-transport layer

Shallow embedding of the frontend transport utilities of the repository:

* `ArrayBufferUtils` (frame codec), `FrameRateOptimizer` and `LatencyMonitor`
  from `src/frontend/src/utils/performanceUtils.ts`;
* the `useWebSocket` hook (outbound queue, reconnect backoff, queue flush on
  open) from `src/frontend/src/utils/coordinateTransform.ts`.

Buffers (`ArrayBuffer`/`Uint8Array`) are modelled as `List ℕ` of byte values,
JS strings as `List Char`, JS floating-point quantities as `ℚ`, and JS integer
quantities as `ℕ`.  A JS operation that throws is modelled with `Option`.
-/

namespace Museum

/-! ## Constants from performanceUtils.ts -/

def METADATA_SIZE : ℕ := 24
def TIMESTAMP_OFFSET : ℕ := 0
def UUID_OFFSET : ℕ := 8

/-! ## JS primitives used by the codec -/

/-- The hexadecimal digit characters accepted by `parseInt(_, 16)`. -/
def hexChars : List Char :=
  ['0','1','2','3','4'] ++ ['5','6','7','8','9'] ++
    ['a','b','c','d','e','f'] ++ ['A','B','C','D','E','F']

/-- Numeric value of a hexadecimal digit character. -/
def hexVal (c : Char) : ℕ :=
  match c with
  | '0' => 0 | '1' => 1 | '2' => 2 | '3' => 3 | '4' => 4
  | '5' => 5 | '6' => 6 | '7' => 7 | '8' => 8 | '9' => 9
  | 'a' => 10 | 'b' => 11 | 'c' => 12 | 'd' => 13 | 'e' => 14 | 'f' => 15
  | 'A' => 10 | 'B' => 11 | 'C' => 12 | 'D' => 13 | 'E' => 14 | 'F' => 15
  | _ => 0

/-- JS `StrWhiteSpace`-style characters relevant to `parseInt` trimming. -/
def isJsSpace (c : Char) : Bool :=
  c = ' ' || c = '\t' || c = '\n' || c = '\r' || c = '\x0b' || c = '\x0c'

/-- Models ECMAScript `parseInt(s, 16)`: trim leading whitespace, optional
sign, optional `0x`/`0X` prefix, then the longest prefix of hex digits;
`none` models the `NaN` result when no digit is found. -/
def parseIntHex (s : List Char) : Option ℤ :=
  let s1 := s.dropWhile isJsSpace
  let sign : ℤ := match s1 with
    | '-' :: _ => -1
    | _ => 1
  let s2 := match s1 with
    | '-' :: rest => rest
    | '+' :: rest => rest
    | _ => s1
  let s3 := match s2 with
    | '0' :: 'x' :: rest => rest
    | '0' :: 'X' :: rest => rest
    | _ => s2
  let digits := s3.takeWhile (fun c => c ∈ hexChars)
  if digits.isEmpty then none
  else some (sign * (digits.foldl (fun a c => a * 16 + hexVal c) 0 : ℕ))

/-- Models the `ToUint8` coercion performed when storing into a `Uint8Array`:
`NaN` (here `none`) becomes `0`, other values are taken modulo `2^8`. -/
def toUint8 (v : Option ℤ) : ℕ :=
  match v with
  | none => 0
  | some z => (z % 256).toNat

/-- Lowercase hex digit character for a value `0..15`
(JS `Number.prototype.toString(16)` digits; `Nat.digitChar` agrees with
that mapping on `0..15`). -/
def hexDigitChar (n : ℕ) : Char :=
  Nat.digitChar n

/-- Models `byte.toString(16).padStart(2, '0')` for a byte value. -/
def byteToHex2 (b : ℕ) : List Char :=
  let s := if b < 16 then [hexDigitChar b] else [hexDigitChar (b / 16), hexDigitChar (b % 16)]
  if s.length < 2 then '0' :: s else s

/-- Lowercasing of hex digits, as performed implicitly by
`toString(16)` on the decode side; other characters are unchanged. -/
def lowerHexChar (c : Char) : Char :=
  match c with
  | 'A' => 'a' | 'B' => 'b' | 'C' => 'c'
  | 'D' => 'd' | 'E' => 'e' | 'F' => 'f'
  | _ => c

/-! ## Number(bigint) conversion

`extractMetadata` converts the decoded `BigUint64` back to a JS `number` via
`Number(...)`.  This rounds the integer to the nearest IEEE-754 double
(ties to even).  A nonnegative integer is exactly representable as a double
iff it is of the form `m * 2^e` with `m < 2^53`. -/

/-- `n` is the exact value of some IEEE-754 double (i.e. an integer with at
most 53 significant binary digits). -/
def IsDoubleInt (n : ℕ) : Prop := ∃ m e : ℕ, m < 2 ^ 53 ∧ n = m * 2 ^ e

/-- Models ECMAScript `Number(bigint)` on a nonnegative integer: round to the
nearest representable double, ties to even.  The quantity `n.log2 - 52` is
the exponent of the unrepresentable low-order part. -/
def jsNumberOfInt (n : ℕ) : ℕ :=
  if n < 2 ^ 53 then n
  else if 2 ^ (n.log2 - 52 - 1) < n % 2 ^ (n.log2 - 52) ∨
      (n % 2 ^ (n.log2 - 52) = 2 ^ (n.log2 - 52 - 1) ∧ n / 2 ^ (n.log2 - 52) % 2 = 1) then
    (n / 2 ^ (n.log2 - 52) + 1) * 2 ^ (n.log2 - 52)
  else
    n / 2 ^ (n.log2 - 52) * 2 ^ (n.log2 - 52)

/-! ## The frame codec (`ArrayBufferUtils`) -/

/-- `DataView.setBigUint64(_, t, false)`: the 8 big-endian bytes of
`t mod 2^64`. -/
def toBytesBE8 (t : ℕ) : List ℕ :=
  (List.range 8).map (fun i => t / 2 ^ (8 * (7 - i)) % 256)

/-- `DataView.getBigUint64(_, false)`: read 8 big-endian bytes. -/
def fromBytesBE (l : List ℕ) : ℕ :=
  l.foldl (fun a b => a * 256 + b) 0

/-- `ArrayBufferUtils.uuidToBytes`: strip hyphens, then parse 16
two-character hex pairs with `parseInt(_, 16)`; an unparsable pair stores
`ToUint8(NaN) = 0` in the `Uint8Array`. -/
def uuidToBytes (uuid : List Char) : List ℕ :=
  let cleanUuid := uuid.filter (fun c => c ≠ '-')
  (List.range 16).map (fun i => toUint8 (parseIntHex ((cleanUuid.drop (2 * i)).take 2)))

/-- `ArrayBufferUtils.bytesToUuid`: hex-encode the 16 bytes and regroup as
8-4-4-4-12 with hyphens. -/
def bytesToUuid (bytes : List ℕ) : List Char :=
  let hex := bytes.flatMap byteToHex2
  (hex.take 8) ++ '-' :: ((hex.drop 8).take 4) ++ '-' :: ((hex.drop 12).take 4)
    ++ '-' :: ((hex.drop 16).take 4) ++ '-' :: ((hex.drop 20).take 12)

/-- `ArrayBufferUtils.addMetadata`: a 24-byte header (8-byte big-endian
timestamp, 16 UUID bytes) followed by the original buffer. -/
def addMetadata (buffer : List ℕ) (timestamp : ℕ) (uuid : List Char) : List ℕ :=
  let metadata := toBytesBE8 timestamp ++ uuidToBytes uuid
  metadata ++ buffer

/-- Result record of `ArrayBufferUtils.extractMetadata`. -/
structure ExtractedMetadata where
  timestamp : ℕ
  uuid : List Char
  data : List ℕ
deriving DecidableEq

/-- `ArrayBufferUtils.extractMetadata`: `none` models the `RangeError`
thrown by `getBigUint64` (fewer than 8 bytes) or by
`new Uint8Array(buffer, 8, 16)` (fewer than 24 bytes). -/
def extractMetadata (buffer : List ℕ) : Option ExtractedMetadata :=
  if buffer.length < 8 then none
  else if buffer.length < 24 then none
  else some
    { timestamp := jsNumberOfInt (fromBytesBE (buffer.take 8))
      uuid := bytesToUuid ((buffer.drop 8).take 16)
      data := buffer.drop METADATA_SIZE }

/-! ## Basic structural lemmas about the codec -/

theorem toBytesBE8_length (t : ℕ) : (toBytesBE8 t).length = 8 := by
  simp [toBytesBE8]

theorem uuidToBytes_length (u : List Char) : (uuidToBytes u).length = 16 := by
  simp [uuidToBytes]

theorem addMetadata_length (p : List ℕ) (t : ℕ) (u : List Char) :
    (addMetadata p t u).length = p.length + 24 := by
  simp [addMetadata, toBytesBE8_length, uuidToBytes_length]
  omega

/-- Reading back the 8 big-endian bytes of a `u64` value recovers it. -/
theorem fromBytesBE_toBytesBE8 (t : ℕ) (h : t < 2 ^ 64) :
    fromBytesBE (toBytesBE8 t) = t := by
  unfold toBytesBE8 fromBytesBE
  norm_num [List.range_succ]
  omega

/-- An integer with at most 53 significant bits converts to a JS `number`
exactly (the rounding in `Number(bigint)` is the identity there). -/
theorem jsNumberOfInt_eq_self {n : ℕ} (h : IsDoubleInt n) : jsNumberOfInt n = n := by
  obtain ⟨m, e, hm, rfl⟩ := h
  by_cases hlt : m * 2 ^ e < 2 ^ 53
  · unfold jsNumberOfInt
    rw [if_pos hlt]
  · have hm0 : m ≠ 0 := by
      rintro rfl
      simp at hlt
    have hlogm : Nat.log 2 m ≤ 52 := by
      have := Nat.log_lt_of_lt_pow (b := 2) (x := 53) hm0 hm
      omega
    have hlogmul : ∀ j : ℕ, Nat.log 2 (m * 2 ^ j) = Nat.log 2 m + j := by
      intro j
      induction j with
      | zero => simp
      | succ k ih =>
        have hsplit : m * 2 ^ (k + 1) = m * 2 ^ k * 2 := by ring
        rw [hsplit, Nat.log_mul_base (by norm_num) (by positivity), ih]
        omega
    have hlogge : 53 ≤ Nat.log 2 (m * 2 ^ e) := by
      rw [← Nat.pow_le_iff_le_log (by norm_num) (by positivity)]
      omega
    have hE' : (m * 2 ^ e).log2 - 52 = Nat.log 2 m + e - 52 := by
      rw [Nat.log2_eq_log_two, hlogmul]
    have hEe : (m * 2 ^ e).log2 - 52 ≤ e := by
      rw [hE']
      omega
    have hE1 : 1 ≤ (m * 2 ^ e).log2 - 52 := by
      rw [Nat.log2_eq_log_two]
      have := hlogmul e
      omega
    have hdvd : 2 ^ ((m * 2 ^ e).log2 - 52) ∣ m * 2 ^ e :=
      Dvd.dvd.mul_left (pow_dvd_pow 2 hEe) m
    have hmod : m * 2 ^ e % 2 ^ ((m * 2 ^ e).log2 - 52) = 0 := by
      obtain ⟨c, hc⟩ := hdvd
      nth_rewrite 1 [hc]
      exact Nat.mul_mod_right _ _
    have hhalf : 0 < 2 ^ ((m * 2 ^ e).log2 - 52 - 1) := Nat.pos_pow_of_pos _ (by norm_num)
    unfold jsNumberOfInt
    rw [if_neg hlt, hmod, if_neg (by omega)]
    exact Nat.div_mul_cancel hdvd

/-- C4 helper is the theorem itself: decoding any buffer shorter than 24
bytes fails (models the `RangeError` thrown by `getBigUint64` or by the
`Uint8Array` view construction). -/
theorem extractMetadata_short (b : List ℕ) (h : b.length < 24) :
    extractMetadata b = none := by
  unfold extractMetadata
  rcases Nat.lt_or_ge b.length 8 with h8 | h8
  · rw [if_pos h8]
  · rw [if_neg (by omega), if_pos (by omega)]

end Museum

namespace Museum

/-! ## Claim theorems for the decode error path -/

/-- C4: the decode operation (`extractMetadata`) fails with a decoding error
for every input buffer whose length is less than 24 bytes. -/
theorem c4_decode_fails_below_24 (b : List ℕ) (h : b.length < 24) :
    extractMetadata b = none :=
  extractMetadata_short b h

theorem c4_decode_fails_below_24_witness :
    ([1, 2, 3, 4, 5] : List ℕ).length < 24 ∧ extractMetadata [1, 2, 3, 4, 5] = none :=
  ⟨by decide, c4_decode_fails_below_24 [1, 2, 3, 4, 5] (by decide)⟩

/-- C10: for every input buffer of length at least 24, `extractMetadata`
succeeds (its error branch is unreachable) and the returned payload is
exactly the suffix of the buffer starting at offset 24, of length
`buffer.length - 24`. -/
theorem c10_decode_succeeds_from_24 (b : List ℕ) (h : 24 ≤ b.length) :
    ∃ r : ExtractedMetadata, extractMetadata b = some r ∧
      r.data = b.drop 24 ∧ r.data.length = b.length - 24 := by
  have hok : extractMetadata b = some
      { timestamp := jsNumberOfInt (fromBytesBE (b.take 8))
        uuid := bytesToUuid ((b.drop 8).take 16)
        data := b.drop METADATA_SIZE } := by
    unfold extractMetadata
    rw [if_neg (by omega), if_neg (by omega)]
  refine ⟨_, hok, ?_, ?_⟩
  · rfl
  · simp [METADATA_SIZE]

theorem c10_decode_succeeds_from_24_witness :
    24 ≤ (List.replicate 24 (0 : ℕ) ++ [7]).length ∧
      ∃ r : ExtractedMetadata,
        extractMetadata (List.replicate 24 (0 : ℕ) ++ [7]) = some r ∧
          r.data = (List.replicate 24 (0 : ℕ) ++ [7]).drop 24 ∧
          r.data.length = (List.replicate 24 (0 : ℕ) ++ [7]).length - 24 :=
  ⟨by decide, c10_decode_succeeds_from_24 (List.replicate 24 0 ++ [7]) (by decide)⟩

/-- C3 (counterexample): for the malformed identifier consisting of 36 `'z'`
characters — which cannot be parsed as hex — `addMetadata` does not raise any
error: it silently produces a 24-byte header of zero bytes, and decoding it
succeeds. -/
theorem c3_counterexample_malformed_uuid_encodes :
    addMetadata [] 0 (List.replicate 36 'z') = List.replicate 24 0 ∧
      (extractMetadata (addMetadata [] 0 (List.replicate 36 'z'))).isSome = true := by
  constructor
  · decide
  · decide

/-! ## UUID round-trip machinery -/

/-- Structured form of the 16-iteration `substr` loop in `uuidToBytes`:
consume the cleaned string two characters at a time. -/
def parseHexPairs : ℕ → List Char → List ℕ
  | 0, _ => []
  | n + 1, l => toUint8 (parseIntHex (l.take 2)) :: parseHexPairs n (l.drop 2)

theorem range_map_pairs (n : ℕ) (l : List Char) :
    (List.range n).map (fun i => toUint8 (parseIntHex ((l.drop (2 * i)).take 2))) =
      parseHexPairs n l := by
  induction n generalizing l with
  | zero => simp [parseHexPairs]
  | succ k ih =>
    rw [List.range_succ_eq_map, List.map_cons, List.map_map, parseHexPairs]
    simp only [Nat.mul_zero, List.drop_zero]
    congr 1
    rw [← ih (l.drop 2)]
    apply List.map_congr_left
    intro i _
    simp [Function.comp, List.drop_drop, Nat.mul_succ]
    ring_nf

theorem uuidToBytes_eq_parseHexPairs (u : List Char) :
    uuidToBytes u = parseHexPairs 16 (u.filter (fun c => c ≠ '-')) := by
  unfold uuidToBytes
  exact range_map_pairs 16 _

/-- Parsing a pair of hex-digit characters with `parseInt(_, 16)` and
printing the byte back with `toString(16).padStart(2, '0')` is exact, up to
lowercasing. -/
theorem hexPair_roundtrip :
    ∀ c1 ∈ hexChars, ∀ c2 ∈ hexChars,
      toUint8 (parseIntHex [c1, c2]) = 16 * hexVal c1 + hexVal c2 ∧
        byteToHex2 (16 * hexVal c1 + hexVal c2) = [lowerHexChar c1, lowerHexChar c2] := by
  decide

theorem hex_ne_hyphen : ∀ c ∈ hexChars, c ≠ '-' := by decide

theorem flatMap_parseHexPairs :
    ∀ (n : ℕ) (l : List Char), (∀ c ∈ l, c ∈ hexChars) → l.length = 2 * n →
      (parseHexPairs n l).flatMap byteToHex2 = l.map lowerHexChar := by
  intro n
  induction n with
  | zero =>
    intro l _ hlen
    have hnil : l = [] := List.eq_nil_of_length_eq_zero (by omega)
    subst hnil
    simp [parseHexPairs]
  | succ k ih =>
    intro l hhex hlen
    match l with
    | [] => simp at hlen
    | [c1] => simp at hlen; omega
    | c1 :: c2 :: rest =>
      have h12 := hexPair_roundtrip c1 (hhex c1 (by simp)) c2 (hhex c2 (by simp))
      rw [parseHexPairs]
      have ht : List.take 2 (c1 :: c2 :: rest) = [c1, c2] := rfl
      have hd : List.drop 2 (c1 :: c2 :: rest) = rest := rfl
      rw [ht, hd, List.flatMap_cons, h12.1, h12.2,
        ih rest (fun c hc => hhex c (by simp [hc])) (by simp at hlen; omega)]
      simp

theorem filter_hyphen_of_hex (g : List Char) (h : ∀ c ∈ g, c ∈ hexChars) :
    g.filter (fun c => c ≠ '-') = g := by
  apply List.filter_eq_self.mpr
  intro c hc
  simpa using hex_ne_hyphen c (h c hc)

theorem lowerHexChar_hyphen : lowerHexChar '-' = '-' := rfl

theorem filter_cons_hyphen (g : List Char) :
    ('-' :: g).filter (fun c => c ≠ '-') = g.filter (fun c => c ≠ '-') := by
  simp

/-- Splitting a 8/4/4/4/12 concatenation at the offsets used by
`bytesToUuid`. -/
theorem split_8_4_4_4_12 (A B C D E : List Char)
    (hA : A.length = 8) (hB : B.length = 4) (hC : C.length = 4)
    (hD : D.length = 4) (hE : E.length = 12) :
    (A ++ (B ++ (C ++ (D ++ E)))).take 8 = A ∧
      ((A ++ (B ++ (C ++ (D ++ E)))).drop 8).take 4 = B ∧
      ((A ++ (B ++ (C ++ (D ++ E)))).drop 12).take 4 = C ∧
      ((A ++ (B ++ (C ++ (D ++ E)))).drop 16).take 4 = D ∧
      ((A ++ (B ++ (C ++ (D ++ E)))).drop 20).take 12 = E := by
  refine ⟨List.take_left' hA, ?_, ?_, ?_, ?_⟩
  · rw [List.drop_left' hA, List.take_left' hB]
  · have hassoc : A ++ (B ++ (C ++ (D ++ E))) = (A ++ B) ++ (C ++ (D ++ E)) := by
      simp [List.append_assoc]
    rw [hassoc, List.drop_left' (by simp [hA, hB]), List.take_left' hC]
  · have hassoc : A ++ (B ++ (C ++ (D ++ E))) = ((A ++ B) ++ C) ++ (D ++ E) := by
      simp [List.append_assoc]
    rw [hassoc, List.drop_left' (by simp [hA, hB, hC]), List.take_left' hD]
  · have hassoc : A ++ (B ++ (C ++ (D ++ E))) = (((A ++ B) ++ C) ++ D) ++ E := by
      simp [List.append_assoc]
    rw [hassoc, List.drop_left' (by simp [hA, hB, hC, hD]), ← hE, List.take_length]

/-- C2: for every payload, every `u64`-representable timestamp that is the
exact value of a JS `number`, and every well-formed canonically grouped UUID
string, `extractMetadata (addMetadata …)` returns the payload bytes exactly,
the timestamp exactly, and the UUID up to hex-digit case in canonical
8-4-4-4-12 grouping. -/
theorem c2_codec_roundtrip (payload : List ℕ) (t : ℕ) (g1 g2 g3 g4 g5 : List Char)
    (ht : t < 2 ^ 64) (htd : IsDoubleInt t)
    (h1 : g1.length = 8) (h2 : g2.length = 4) (h3 : g3.length = 4)
    (h4 : g4.length = 4) (h5 : g5.length = 12)
    (hx : ∀ c ∈ g1 ++ g2 ++ g3 ++ g4 ++ g5, c ∈ hexChars) :
    extractMetadata
        (addMetadata payload t
          (g1 ++ ('-' :: g2) ++ ('-' :: g3) ++ ('-' :: g4) ++ ('-' :: g5))) =
      some { timestamp := t
             uuid := (g1 ++ ('-' :: g2) ++ ('-' :: g3) ++ ('-' :: g4) ++ ('-' :: g5)).map
               lowerHexChar
             data := payload } := by
  set u := g1 ++ ('-' :: g2) ++ ('-' :: g3) ++ ('-' :: g4) ++ ('-' :: g5) with hu
  have hx1 : ∀ c ∈ g1, c ∈ hexChars := fun c hc => hx c (by simp [hc])
  have hx2 : ∀ c ∈ g2, c ∈ hexChars := fun c hc => hx c (by simp [hc])
  have hx3 : ∀ c ∈ g3, c ∈ hexChars := fun c hc => hx c (by simp [hc])
  have hx4 : ∀ c ∈ g4, c ∈ hexChars := fun c hc => hx c (by simp [hc])
  have hx5 : ∀ c ∈ g5, c ∈ hexChars := fun c hc => hx c (by simp [hc])
  have hclean : u.filter (fun c => c ≠ '-') = g1 ++ g2 ++ g3 ++ g4 ++ g5 := by
    rw [hu]
    simp only [List.filter_append, filter_cons_hyphen,
      filter_hyphen_of_hex g1 hx1, filter_hyphen_of_hex g2 hx2,
      filter_hyphen_of_hex g3 hx3, filter_hyphen_of_hex g4 hx4,
      filter_hyphen_of_hex g5 hx5]
  have hlen32 : (g1 ++ g2 ++ g3 ++ g4 ++ g5).length = 2 * 16 := by
    simp [h1, h2, h3, h4, h5]
  have huuid : bytesToUuid (uuidToBytes u) = u.map lowerHexChar := by
    rw [uuidToBytes_eq_parseHexPairs, hclean]
    unfold bytesToUuid
    rw [flatMap_parseHexPairs 16 _ hx hlen32]
    have hsplitmap : (g1 ++ g2 ++ g3 ++ g4 ++ g5).map lowerHexChar =
        g1.map lowerHexChar ++ (g2.map lowerHexChar ++ (g3.map lowerHexChar ++
          (g4.map lowerHexChar ++ g5.map lowerHexChar))) := by
      simp [List.append_assoc]
    rw [hsplitmap]
    dsimp only
    obtain ⟨e1, e2, e3, e4, e5⟩ := split_8_4_4_4_12
      (g1.map lowerHexChar) (g2.map lowerHexChar) (g3.map lowerHexChar)
      (g4.map lowerHexChar) (g5.map lowerHexChar)
      (by simp [h1]) (by simp [h2]) (by simp [h3]) (by simp [h4]) (by simp [h5])
    rw [e1, e2, e3, e4, e5, hu]
    simp [List.append_assoc, lowerHexChar_hyphen]
  have hmeta : addMetadata payload t u = toBytesBE8 t ++ (uuidToBytes u ++ payload) := by
    simp [addMetadata, List.append_assoc]
  have hmeta' : addMetadata payload t u = (toBytesBE8 t ++ uuidToBytes u) ++ payload := by
    simp [addMetadata]
  have hlenbuf : (addMetadata payload t u).length = payload.length + 24 :=
    addMetadata_length payload t u
  unfold extractMetadata
  rw [if_neg (by omega), if_neg (by omega)]
  simp only [Option.some.injEq, ExtractedMetadata.mk.injEq]
  refine ⟨?_, ?_, ?_⟩
  · rw [hmeta, List.take_left' (toBytesBE8_length t), fromBytesBE_toBytesBE8 t ht,
      jsNumberOfInt_eq_self htd]
  · rw [hmeta, List.drop_left' (toBytesBE8_length t),
      List.take_left' (uuidToBytes_length u), huuid]
  · rw [hmeta']
    exact List.drop_left' (by simp [toBytesBE8_length, uuidToBytes_length, METADATA_SIZE])

theorem c2_codec_roundtrip_witness :
    extractMetadata
        (addMetadata [1, 2, 3] 1700000000000
          (['0','1','2','3','4','5','6','7'] ++ ('-' :: ['8','9','a','b'])
            ++ ('-' :: ['c','d','e','f']) ++ ('-' :: ['A','B','C','D'])
            ++ ('-' :: ['E','F','0','1','2','3','4','5','6','7','8','9']))) =
      some { timestamp := 1700000000000
             uuid := (['0','1','2','3','4','5','6','7'] ++ ('-' :: ['8','9','a','b'])
               ++ ('-' :: ['c','d','e','f']) ++ ('-' :: ['A','B','C','D'])
               ++ ('-' :: ['E','F','0','1','2','3','4','5','6','7','8','9'])).map lowerHexChar
             data := [1, 2, 3] } :=
  c2_codec_roundtrip [1, 2, 3] 1700000000000
    ['0','1','2','3','4','5','6','7'] ['8','9','a','b'] ['c','d','e','f']
    ['A','B','C','D'] ['E','F','0','1','2','3','4','5','6','7','8','9']
    (by norm_num) ⟨1700000000000, 0, by norm_num, by norm_num⟩
    rfl rfl rfl rfl rfl (by decide)

/-- C3 (amended): the encode operation never fails — every correlationId
string, malformed ones included, is coerced to exactly 16 bytes (unparsable
hex pairs become the byte 0 via `ToUint8(NaN)`), and `addMetadata` always
produces a header-prefixed buffer of length `payload + 24` rather than
raising an `EncodingError`. -/
theorem c3_encode_never_fails (p : List ℕ) (t : ℕ) (u : List Char) :
    (uuidToBytes u).length = 16 ∧
      (addMetadata p t u).length = p.length + 24 ∧
      addMetadata p t u = (toBytesBE8 t ++ uuidToBytes u) ++ p :=
  ⟨uuidToBytes_length u, addMetadata_length p t u, by simp [addMetadata]⟩

/-! ## LatencyMonitor (performanceUtils.ts) -/

inductive Trend where
  | improving
  | stable
  | degrading
deriving DecidableEq

/-- `LatencyMonitor.maxHistorySize`. -/
def maxLatencyHistorySize : ℕ := 20

/-- `LatencyMonitor.addLatency`: push if `0 < latency < 10000`, then shift
the oldest entry once the window exceeds 20.  The history list is the
receiver state. -/
def addLatency (history : List ℚ) (latency : ℚ) : List ℚ :=
  if 0 < latency ∧ latency < 10000 then
    if maxLatencyHistorySize < (history ++ [latency]).length then
      (history ++ [latency]).tail
    else history ++ [latency]
  else history

/-- `latencyHistory.slice(-5)`. -/
def recentWindow (history : List ℚ) : List ℚ :=
  history.drop (history.length - 5)

/-- `latencyHistory.slice(-10, -5)` (JS negative-index semantics). -/
def olderWindow (history : List ℚ) : List ℚ :=
  (history.drop (history.length - 10)).take ((history.length - 5) - (history.length - 10))

/-- `xs.reduce((sum, x) => sum + x, 0) / xs.length`. -/
def listAvg (l : List ℚ) : ℚ :=
  l.foldl (fun sum x => sum + x) 0 / l.length

/-- `LatencyMonitor.getLatencyTrend`. -/
def getLatencyTrend (history : List ℚ) : Trend :=
  if history.length < 5 then .stable
  else if (olderWindow history).length = 0 then .stable
  else if listAvg (recentWindow history) - listAvg (olderWindow history) < -10 then .improving
  else if 10 < listAvg (recentWindow history) - listAvg (olderWindow history) then .degrading
  else .stable

/-! ## FrameRateOptimizer (performanceUtils.ts) -/

structure FrameRateOptimizer where
  frameHistory : List ℚ := []
  maxHistorySize : ℕ := 10
  lastFrameTime : ℚ := 0
  frameCount : ℕ := 0
  droppedFramesCount : ℕ := 0
  targetFps : ℚ := 10
deriving DecidableEq

/-- `FrameRateOptimizer.shouldDropFrame`, with `performance.now()` passed in
as `now`.  Returns the drop decision and the updated optimizer state: a
rejected frame only bumps the dropped counter; an admitted frame records
`now` as the last-admit time and appends it to the (10-bounded) history. -/
def shouldDropFrame (now : ℚ) (o : FrameRateOptimizer) : Bool × FrameRateOptimizer :=
  if now - o.lastFrameTime < 1000 / o.targetFps then
    (true, { o with droppedFramesCount := o.droppedFramesCount + 1 })
  else
    (false,
      { o with
        lastFrameTime := now
        frameHistory :=
          if o.maxHistorySize < (o.frameHistory ++ [now]).length then
            (o.frameHistory ++ [now]).tail
          else o.frameHistory ++ [now]
        frameCount := o.frameCount + 1 })

/-- `FrameRateOptimizer.adjustFrameRate`: returns the new target FPS and the
updated state. -/
def adjustFrameRate (o : FrameRateOptimizer) (currentFps latency : ℚ) : ℚ × FrameRateOptimizer :=
  if currentFps < o.targetFps * 0.4 ∨ 300 < latency then
    (max 5 (o.targetFps - 1), { o with targetFps := max 5 (o.targetFps - 1) })
  else if o.targetFps * 1.5 < currentFps ∧ latency < 50 then
    (min 15 (o.targetFps + 1), { o with targetFps := min 15 (o.targetFps + 1) })
  else
    (o.targetFps, o)

/-- Iterated retuning, as invoked once per second by the caller. -/
def runAdjust (o : FrameRateOptimizer) (calls : List (ℚ × ℚ)) : FrameRateOptimizer :=
  calls.foldl (fun s c => (adjustFrameRate s c.1 c.2).2) o

/-! ## Latency-trend claim (C5) -/

theorem olderWindow_length_ne_zero (history : List ℚ) (h : 5 < history.length) :
    (olderWindow history).length ≠ 0 := by
  simp only [olderWindow, List.length_take, List.length_drop]
  omega

/-- C5 (counterexample): after feeding the six valid samples
`[100, 50, 50, 50, 50, 50]`, fewer than 10 samples exist, yet the trend is
`improving`, not `stable`. -/
theorem c5_counterexample_six_samples :
    (List.foldl addLatency [] [100, 50, 50, 50, 50, 50]).length < 10 ∧
      getLatencyTrend (List.foldl addLatency [] [100, 50, 50, 50, 50, 50]) = Trend.improving := by
  norm_num [addLatency, maxLatencyHistorySize, getLatencyTrend, olderWindow, recentWindow,
    listAvg]

/-- C5 (amended): the trend is `stable` whenever at most 5 samples exist;
with more than 5 samples it compares the mean of the most recent 5 samples
against the mean of the (up to 5) preceding samples with a ±10 ms band.
Feeding `[100 ×5, 50 ×5]` yields `improving` and the reverse yields
`degrading`. -/
theorem c5_trend_amended (history : List ℚ) (hlen : 5 < history.length) :
    getLatencyTrend history =
        (if listAvg (recentWindow history) - listAvg (olderWindow history) < -10 then
          Trend.improving
        else if 10 < listAvg (recentWindow history) - listAvg (olderWindow history) then
          Trend.degrading
        else Trend.stable) ∧
      (∀ h2 : List ℚ, h2.length ≤ 5 → getLatencyTrend h2 = Trend.stable) ∧
      getLatencyTrend
          (List.foldl addLatency [] [100, 100, 100, 100, 100, 50, 50, 50, 50, 50]) =
        Trend.improving ∧
      getLatencyTrend
          (List.foldl addLatency [] [50, 50, 50, 50, 50, 100, 100, 100, 100, 100]) =
        Trend.degrading := by
  refine ⟨?_, ?_, ?_, ?_⟩
  · unfold getLatencyTrend
    rw [if_neg (by omega), if_neg (olderWindow_length_ne_zero history hlen)]
  · intro h2 hle
    unfold getLatencyTrend
    by_cases hlt : h2.length < 5
    · rw [if_pos hlt]
    · have h5 : h2.length = 5 := by omega
      rw [if_neg hlt, if_pos (by simp [olderWindow, h5])]
  · norm_num [addLatency, maxLatencyHistorySize, getLatencyTrend, olderWindow, recentWindow,
      listAvg]
  · norm_num [addLatency, maxLatencyHistorySize, getLatencyTrend, olderWindow, recentWindow,
      listAvg]

theorem c5_trend_amended_witness :
    getLatencyTrend [100] = Trend.stable ∧
      getLatencyTrend
          (List.foldl addLatency [] [100, 100, 100, 100, 100, 50, 50, 50, 50, 50]) =
        Trend.improving :=
  ⟨(c5_trend_amended [1, 2, 3, 4, 5, 6] (by norm_num)).2.1 [100] (by norm_num),
   (c5_trend_amended [1, 2, 3, 4, 5, 6] (by norm_num)).2.2.1⟩

/-! ## Frame-admission claim (C8) -/

theorem shouldDropFrame_fst (now : ℚ) (o : FrameRateOptimizer) :
    (shouldDropFrame now o).1 = true ↔ now - o.lastFrameTime < 1000 / o.targetFps := by
  unfold shouldDropFrame
  split
  · simp [*]
  · simp [*]

theorem shouldDropFrame_drop_state (now : ℚ) (o : FrameRateOptimizer)
    (h : now - o.lastFrameTime < 1000 / o.targetFps) :
    (shouldDropFrame now o).2.droppedFramesCount = o.droppedFramesCount + 1 ∧
      (shouldDropFrame now o).2.lastFrameTime = o.lastFrameTime := by
  unfold shouldDropFrame
  rw [if_pos h]
  exact ⟨rfl, rfl⟩

theorem shouldDropFrame_admit_state (now : ℚ) (o : FrameRateOptimizer)
    (h : ¬(now - o.lastFrameTime < 1000 / o.targetFps)) :
    (shouldDropFrame now o).2.lastFrameTime = now ∧
      (shouldDropFrame now o).2.targetFps = o.targetFps ∧
      (shouldDropFrame now o).2.droppedFramesCount = o.droppedFramesCount := by
  unfold shouldDropFrame
  rw [if_neg h]
  exact ⟨rfl, rfl, rfl⟩

/-- C8: `shouldDropFrame` rejects and bumps the dropped counter exactly when
the elapsed time since the last admitted frame is below `1000 / targetFps`;
an admitted frame records `now` as the new last-admit time.  With
`targetFps = 10`, after an admitted attempt a second attempt less than
100 ms later is dropped, while one at least 100 ms later is admitted. -/
theorem c8_admission (o : FrameRateOptimizer) (now : ℚ) :
    ((shouldDropFrame now o).1 = true ↔ now - o.lastFrameTime < 1000 / o.targetFps) ∧
      ((shouldDropFrame now o).1 = true →
        (shouldDropFrame now o).2.droppedFramesCount = o.droppedFramesCount + 1 ∧
          (shouldDropFrame now o).2.lastFrameTime = o.lastFrameTime) ∧
      ((shouldDropFrame now o).1 = false →
        (shouldDropFrame now o).2.lastFrameTime = now ∧
          (shouldDropFrame now o).2.droppedFramesCount = o.droppedFramesCount) ∧
      (o.targetFps = 10 → (shouldDropFrame now o).1 = false →
        ∀ t2 : ℚ,
          (t2 - now < 100 → (shouldDropFrame t2 (shouldDropFrame now o).2).1 = true) ∧
            (100 ≤ t2 - now → (shouldDropFrame t2 (shouldDropFrame now o).2).1 = false)) := by
  by_cases hc : now - o.lastFrameTime < 1000 / o.targetFps
  · have hfst : (shouldDropFrame now o).1 = true := (shouldDropFrame_fst now o).mpr hc
    refine ⟨by rw [shouldDropFrame_fst], ?_, ?_, ?_⟩
    · intro _
      exact shouldDropFrame_drop_state now o hc
    · intro hfalse
      rw [hfst] at hfalse
      simp at hfalse
    · intro _ hfalse
      rw [hfst] at hfalse
      simp at hfalse
  · have hstate := shouldDropFrame_admit_state now o hc
    have hfst : (shouldDropFrame now o).1 = false := by
      rw [← Bool.not_eq_true, shouldDropFrame_fst]
      exact hc
    refine ⟨by rw [shouldDropFrame_fst], ?_, ?_, ?_⟩
    · intro htrue
      rw [hfst] at htrue
      simp at htrue
    · intro _
      exact ⟨hstate.1, hstate.2.2⟩
    · intro hfps _ t2
      constructor
      · intro hlt
        apply (shouldDropFrame_fst t2 _).mpr
        rw [hstate.1, hstate.2.1, hfps]
        norm_num
        linarith
      · intro hge
        rw [← Bool.not_eq_true, shouldDropFrame_fst]
        rw [hstate.1, hstate.2.1, hfps]
        norm_num
        linarith

theorem c8_admission_witness :
    (shouldDropFrame 100 ({} : FrameRateOptimizer)).1 = false ∧
      (shouldDropFrame 150 (shouldDropFrame 100 ({} : FrameRateOptimizer)).2).1 = true ∧
      (shouldDropFrame 200 (shouldDropFrame 100 ({} : FrameRateOptimizer)).2).1 = false := by
  have h := c8_admission ({} : FrameRateOptimizer) 100
  have hadm : (shouldDropFrame 100 ({} : FrameRateOptimizer)).1 = false := by
    norm_num [shouldDropFrame]
  have hrest := h.2.2.2 rfl hadm
  exact ⟨hadm, (hrest 150).1 (by norm_num), (hrest 200).2 (by norm_num)⟩

/-! ## Adaptive retuning claim (C9) -/

theorem adjust_preserves_bounds (o : FrameRateOptimizer) (fps lat : ℚ)
    (h5 : 5 ≤ o.targetFps) (h15 : o.targetFps ≤ 15) :
    5 ≤ (adjustFrameRate o fps lat).2.targetFps ∧
      (adjustFrameRate o fps lat).2.targetFps ≤ 15 := by
  unfold adjustFrameRate
  split
  · exact ⟨by simp [le_max_left], by simp; constructor <;> linarith⟩
  · split
    · exact ⟨by simp; constructor <;> linarith, by simp [min_le_left]⟩
    · exact ⟨h5, h15⟩

theorem runAdjust_bounds (calls : List (ℚ × ℚ)) :
    ∀ o : FrameRateOptimizer, 5 ≤ o.targetFps → o.targetFps ≤ 15 →
      5 ≤ (runAdjust o calls).targetFps ∧ (runAdjust o calls).targetFps ≤ 15 := by
  induction calls with
  | nil =>
    intro o h5 h15
    exact ⟨h5, h15⟩
  | cons c cs ih =>
    intro o h5 h15
    have hp := adjust_preserves_bounds o c.1 c.2 h5 h15
    simpa [runAdjust, List.foldl_cons] using ih _ hp.1 hp.2

/-- C9: a single `adjustFrameRate` call decreases `targetFps` by 1 floored
at 5 exactly when `currentFps < targetFps * 0.4` or `latency > 300`;
otherwise increases by 1 capped at 15 exactly when
`currentFps > targetFps * 1.5` and `latency < 50`; otherwise leaves it
unchanged; and starting from the default of 10 it stays within `[5, 15]`
after every sequence of calls. -/
theorem c9_adjustFrameRate (o : FrameRateOptimizer) (fps lat : ℚ) :
    ((fps < o.targetFps * 0.4 ∨ 300 < lat) →
        (adjustFrameRate o fps lat).2.targetFps = max 5 (o.targetFps - 1)) ∧
      (¬(fps < o.targetFps * 0.4 ∨ 300 < lat) → o.targetFps * 1.5 < fps ∧ lat < 50 →
        (adjustFrameRate o fps lat).2.targetFps = min 15 (o.targetFps + 1)) ∧
      (¬(fps < o.targetFps * 0.4 ∨ 300 < lat) → ¬(o.targetFps * 1.5 < fps ∧ lat < 50) →
        (adjustFrameRate o fps lat).2.targetFps = o.targetFps) ∧
      ∀ calls : List (ℚ × ℚ),
        5 ≤ (runAdjust {} calls).targetFps ∧ (runAdjust {} calls).targetFps ≤ 15 := by
  refine ⟨?_, ?_, ?_, ?_⟩
  · intro h
    simp [adjustFrameRate, h]
  · intro h1 h2
    simp [adjustFrameRate, h1, h2]
  · intro h1 h2
    simp [adjustFrameRate, h1, h2]
  · intro calls
    exact runAdjust_bounds calls {} (by show (5 : ℚ) ≤ 10; norm_num)
      (by show (10 : ℚ) ≤ 15; norm_num)

theorem c9_adjustFrameRate_witness :
    (adjustFrameRate {} 2 0).2.targetFps =
        max 5 (({} : FrameRateOptimizer).targetFps - 1) ∧
      (adjustFrameRate {} 20 10).2.targetFps =
        min 15 (({} : FrameRateOptimizer).targetFps + 1) :=
  ⟨(c9_adjustFrameRate {} 2 0).1 (by left; show (2 : ℚ) < 10 * 0.4; norm_num),
   (c9_adjustFrameRate {} 20 10).2.1
     (by show ¬((20 : ℚ) < 10 * 0.4 ∨ (300 : ℚ) < 10); norm_num)
     (by show (10 : ℚ) * 1.5 < 20 ∧ (10 : ℚ) < 50; norm_num)⟩

/-! ## useWebSocket hook (coordinateTransform.ts)

The hook's mutable refs and React state are collected in `WsState`;
`sentMessages` records what was transmitted on the socket.  `α` is the
message type. -/

structure WsState (α : Type) where
  connected : Bool := false
  messageQueue : List α := []
  messageQueueSize : ℕ := 0
  sentMessages : List α := []
  warnCount : ℕ := 0
  errorSet : Bool := false
  reconnectAttempts : ℕ := 0
deriving DecidableEq

def maxReconnectAttempts : ℕ := 5

/-- `useWebSocket.sendMessage`: transmit when the socket is open, otherwise
queue (push, publish the post-push size, then shift the oldest entry with a
console warning when the size exceeds 50). -/
def sendMessage {α : Type} (s : WsState α) (m : α) : WsState α :=
  if s.connected then
    { s with sentMessages := s.sentMessages ++ [m] }
  else if 50 < (s.messageQueue ++ [m]).length then
    { s with
      messageQueue := (s.messageQueue ++ [m]).tail
      messageQueueSize := (s.messageQueue ++ [m]).length
      warnCount := s.warnCount + 1 }
  else
    { s with
      messageQueue := s.messageQueue ++ [m]
      messageQueueSize := (s.messageQueue ++ [m]).length }

/-- The `ws.onopen` handler: sets connected state, clears the error and
the queue (`messageQueue.current = []`), and resets the attempt counter.
It runs synchronously when the socket opens. -/
def onopen {α : Type} (s : WsState α) : WsState α :=
  { s with
    connected := true
    errorSet := false
    messageQueueSize := 0
    messageQueue := []
    reconnectAttempts := 0 }

/-- The `useEffect` that processes queued messages once `isConnected` turns
true: snapshot the queue, clear it, then `sendMessage` each snapshot entry.
It runs on the re-render following `onopen`. -/
def flushQueuedEffect {α : Type} (s : WsState α) : WsState α :=
  if s.connected = true ∧ 0 < s.messageQueue.length then
    s.messageQueue.foldl sendMessage { s with messageQueue := [], messageQueueSize := 0 }
  else s

/-- The observable behaviour of a socket-open event: the synchronous
`onopen` handler, followed by the queued-message flush effect on the next
render. -/
def socketOpen {α : Type} (s : WsState α) : WsState α :=
  flushQueuedEffect (onopen s)

/-- `Math.min(1000 * Math.pow(2, attempt), 30000)` from the reconnect
effect. -/
def backoffDelay (attempt : ℕ) : ℕ :=
  min (1000 * 2 ^ attempt) 30000

/-- The reconnect effect: when disconnected with no error and fewer than
`maxReconnectAttempts` attempts, schedule a timer with the backoff delay. -/
def scheduleReconnect {α : Type} (s : WsState α) : Option ℕ :=
  if s.connected = false ∧ s.errorSet = false ∧ s.reconnectAttempts < maxReconnectAttempts then
    some (backoffDelay s.reconnectAttempts)
  else none

/-- The reconnect timer callback: `reconnectAttempts.current++` happens
first, then `connect()` opens a fresh socket (which changes none of the
modelled fields until its own events fire). -/
def reconnectTimerFire {α : Type} (s : WsState α) : WsState α :=
  { s with reconnectAttempts := s.reconnectAttempts + 1 }

theorem sendMessage_queue_small {α : Type} (s : WsState α) (m : α)
    (hc : s.connected = false) (hlen : (s.messageQueue ++ [m]).length ≤ 50) :
    (sendMessage s m).connected = s.connected ∧
      (sendMessage s m).sentMessages = s.sentMessages ∧
      (sendMessage s m).messageQueue = s.messageQueue ++ [m] ∧
      (sendMessage s m).warnCount = s.warnCount := by
  unfold sendMessage
  rw [hc, if_neg (by simp), if_neg (by omega)]
  exact ⟨rfl, rfl, rfl, rfl⟩

theorem sendMessage_queue_full {α : Type} (s : WsState α) (m : α)
    (hc : s.connected = false) (hlen : 50 < (s.messageQueue ++ [m]).length) :
    (sendMessage s m).connected = s.connected ∧
      (sendMessage s m).sentMessages = s.sentMessages ∧
      (sendMessage s m).messageQueue = (s.messageQueue ++ [m]).tail ∧
      (sendMessage s m).warnCount = s.warnCount + 1 := by
  unfold sendMessage
  rw [hc, if_neg (by simp), if_pos hlen]
  exact ⟨rfl, rfl, rfl, rfl⟩

/-- State evolution of enqueuing from the initial (disconnected) state:
the queue holds the last 50 messages and one warning is emitted per
eviction; nothing is transmitted. -/
theorem foldl_sendMessage_disconnected {α : Type} (msgs : List α) :
    (msgs.foldl sendMessage ({} : WsState α)).connected = false ∧
      (msgs.foldl sendMessage ({} : WsState α)).sentMessages = [] ∧
      (msgs.foldl sendMessage ({} : WsState α)).messageQueue =
        msgs.drop (msgs.length - 50) ∧
      (msgs.foldl sendMessage ({} : WsState α)).warnCount = msgs.length - 50 := by
  induction msgs using List.reverseRecOn with
  | nil => exact ⟨rfl, rfl, rfl, rfl⟩
  | append_singleton ms m ih =>
    obtain ⟨hconn, hsent, hqueue, hwarn⟩ := ih
    rw [List.foldl_append, List.foldl_cons, List.foldl_nil]
    by_cases hlen : ms.length < 50
    · have hqlen : ((ms.foldl sendMessage ({} : WsState α)).messageQueue ++ [m]).length ≤ 50 := by
        rw [hqueue]
        simp
        omega
      obtain ⟨e1, e2, e3, e4⟩ :=
        sendMessage_queue_small (ms.foldl sendMessage ({} : WsState α)) m hconn hqlen
      refine ⟨e1.trans hconn, e2.trans hsent, ?_, ?_⟩
      · rw [e3, hqueue, Nat.sub_eq_zero_of_le (by omega),
          Nat.sub_eq_zero_of_le (by simp; omega), List.drop_zero, List.drop_zero]
      · rw [e4, hwarn]
        simp
        omega
    · have hqlen : 50 < ((ms.foldl sendMessage ({} : WsState α)).messageQueue ++ [m]).length := by
        rw [hqueue]
        simp
        omega
      obtain ⟨e1, e2, e3, e4⟩ :=
        sendMessage_queue_full (ms.foldl sendMessage ({} : WsState α)) m hconn hqlen
      refine ⟨e1.trans hconn, e2.trans hsent, ?_, ?_⟩
      · rw [e3, hqueue]
        have hne : ms.drop (ms.length - 50) ≠ [] := by
          apply List.ne_nil_of_length_pos
          simp
          omega
        obtain ⟨x, xs, hx⟩ := List.exists_cons_of_ne_nil hne
        rw [hx]
        have htail : ms.drop (ms.length - 50 + 1) = xs := by
          rw [← List.tail_drop, hx]
          rfl
        have harith : (ms ++ [m]).length - 50 = ms.length - 50 + 1 := by
          simp
          omega
        rw [harith, List.drop_append_of_le_length (by omega), htail]
        rfl
      · rw [e4, hwarn]
        simp
        omega

/-- C6: enqueuing while not connected appends to the queue, and past the
capacity of 50 exactly the single oldest entry is evicted with a warning
(never an exception): after 51 sends the queue is the last 50 messages in
insertion order with exactly one eviction warning. -/
theorem c6_queue_eviction {α : Type} (msgs : List α) (h : msgs.length = 51) :
    (msgs.foldl sendMessage ({} : WsState α)).messageQueue = msgs.drop 1 ∧
      (msgs.foldl sendMessage ({} : WsState α)).messageQueue.length = 50 ∧
      (msgs.foldl sendMessage ({} : WsState α)).warnCount = 1 ∧
      (msgs.foldl sendMessage ({} : WsState α)).sentMessages = [] := by
  obtain ⟨hconn, hsent, hqueue, hwarn⟩ := foldl_sendMessage_disconnected msgs
  have h1 : msgs.length - 50 = 1 := by omega
  rw [h1] at hqueue hwarn
  exact ⟨hqueue, by rw [hqueue]; simp [h], hwarn, hsent⟩

theorem c6_queue_eviction_witness :
    ((List.range 51).foldl sendMessage ({} : WsState ℕ)).messageQueue =
        (List.range 51).drop 1 ∧
      ((List.range 51).foldl sendMessage ({} : WsState ℕ)).messageQueue.length = 50 ∧
      ((List.range 51).foldl sendMessage ({} : WsState ℕ)).warnCount = 1 ∧
      ((List.range 51).foldl sendMessage ({} : WsState ℕ)).sentMessages = [] :=
  c6_queue_eviction (List.range 51) (by simp)

/-- C1 (code evaluated at the failing input): three messages queued while
disconnected are present in order, but the socket-open event transmits
nothing — `ws.onopen` clears `messageQueue.current` before the flush effect
can run, so the queue flush is a no-op and the three messages are silently
discarded — while a fourth, freshly submitted message is sent. -/
theorem c1_queued_messages_lost_on_open :
    (sendMessage (sendMessage (sendMessage ({} : WsState ℕ) 1) 2) 3).messageQueue =
        [1, 2, 3] ∧
      (socketOpen (sendMessage (sendMessage (sendMessage ({} : WsState ℕ) 1) 2) 3)).connected
          = true ∧
      (socketOpen (sendMessage (sendMessage (sendMessage ({} : WsState ℕ) 1) 2)
          3)).sentMessages = [] ∧
      (sendMessage
          (socketOpen (sendMessage (sendMessage (sendMessage ({} : WsState ℕ) 1) 2) 3))
          4).sentMessages = [4] := by
  decide

/-- C7: the reconnect delay is `min(1000 * 2^attempt, 30000)` ms, taking the
values 1000, 2000, 4000, 8000, 16000, 30000 at attempts 0..5, and the timer
callback increments the attempt counter before it calls `connect()`. -/
theorem c7_backoff (s : WsState ℕ) (h1 : s.connected = false) (h2 : s.errorSet = false)
    (h3 : s.reconnectAttempts < maxReconnectAttempts) :
    scheduleReconnect s = some (min (1000 * 2 ^ s.reconnectAttempts) 30000) ∧
      (List.range 6).map backoffDelay = [1000, 2000, 4000, 8000, 16000, 30000] ∧
      (reconnectTimerFire s).reconnectAttempts = s.reconnectAttempts + 1 := by
  refine ⟨?_, by decide, rfl⟩
  unfold scheduleReconnect
  rw [if_pos ⟨h1, h2, h3⟩]
  rfl

theorem c7_backoff_witness :
    scheduleReconnect ({} : WsState ℕ) =
        some (min (1000 * 2 ^ ({} : WsState ℕ).reconnectAttempts) 30000) ∧
      (List.range 6).map backoffDelay = [1000, 2000, 4000, 8000, 16000, 30000] ∧
      (reconnectTimerFire ({} : WsState ℕ)).reconnectAttempts =
        ({} : WsState ℕ).reconnectAttempts + 1 :=
  c7_backoff {} rfl rfl (by decide)

end Museum
